import Mathlib

/-!
Sound generator / mixer of `source/frontends/sdl/sdirectsound.cpp`.

A shallow embedding of the SDL code path (the branches taken when
`USE_COREAUDIO` is not defined), followed by theorems about it.

Conventions of the embedding:

* `size_t` values are natural numbers reduced modulo `SIZE_T_MOD = 2 ^ 64`
  wherever the source computes with them;
* the type of `double` values is a parameter `α`. The volume conversion and the
  pull callback use only its operations (comparison, literals, negation,
  subtraction, division, multiplication) together with `std::log` and the
  conversion to `Uint8`, both passed in, so what is proved of the callback
  holds whatever these operations compute, rounding included. Theorems that
  speak of values take `α = ℝ` with `std::log` read as `Real.log`; there
  rounding is not modelled;
* pointers to `IDirectSoundBuffer` are opaque handles (natural numbers); the
  object behind a handle belongs to the producer and is passed in as a
  snapshot whenever the code reads it;
* calls into SDL (`SDL_OpenAudioDevice`, `SDL_MixAudioFormat`) and the
  producer's `Read` are inputs of the functions that perform them.
-/

namespace SDirectSound

/-! ## Machine arithmetic -/

/-- Number of values of a `size_t` (64-bit build). -/
def SIZE_T_MOD : Nat := 2 ^ 64

/-! ## `nextPowerOf2` -/

/-- The `while (k < n) k *= 2;` loop of `nextPowerOf2`, started at `k`, with a
bound on the number of loop tests. `none` means the bound was reached before
the loop exited. -/
def nextPowerOf2Loop (n : Nat) : Nat → Nat → Option Nat
  | 0, _ => none
  | fuel + 1, k => if k < n then nextPowerOf2Loop n fuel (k * 2 % SIZE_T_MOD) else some k

/-- Embedding of `nextPowerOf2(size_t n)`: `k = 1`, then the loop. A `size_t`
that is doubled 64 times has become `0`, and from `0` the loop can no longer
make progress, so 65 loop tests decide the loop: `none` stands for a call
that does not return (see `nextPowerOf2Loop_diverges`). -/
def nextPowerOf2 (n : Nat) : Option Nat :=
  nextPowerOf2Loop n 65 1

/-! ## Volume conversion -/

/-- Value of SDL's `SDL_MIX_MAXVOLUME`. -/
def SDL_MIX_MAXVOLUME : Nat := 128

/-- The expression
`logVolume > 0.99 ? 1.0 : -std::log(1.0 - logVolume) / std::log(100.0)`
of `mixBufferTo` (the same expression occurs in `setVolumeIfNecessary`).
`log` is `std::log`. -/
def linVolume {α : Type} [LT α] [∀ a b : α, Decidable (a < b)] [OfScientific α] [Neg α] [Sub α]
    [Div α] (log : α → α) (logVolume : α) : α :=
  if logVolume > 0.99 then 1.0 else -log (1.0 - logVolume) / log 100.0

/-- The statement `const Uint8 svolume = Uint8(linVolume * SDL_MIX_MAXVOLUME);`
of `mixBufferTo`. `toUint8` is the conversion of a `double` to `Uint8`. -/
def svolume {α : Type} [LT α] [∀ a b : α, Decidable (a < b)] [OfScientific α] [Neg α] [Sub α]
    [Div α] [Mul α] [NatCast α] (log : α → α) (toUint8 : α → Nat) (logVolume : α) : Nat :=
  toUint8 (linVolume log logVolume * (SDL_MIX_MAXVOLUME : α))

/-- The conversion of a `double` to `Uint8` on exact values: truncation toward
zero, then the low 8 bits. C++ defines the conversion only when the truncated
value fits a `Uint8`; outside of that the embedding follows what the compiled
code does (truncate, then wrap). -/
def truncUint8 {α : Type} [LinearOrderedRing α] [FloorRing α] (x : α) : Nat :=
  ((if 0 ≤ x then Int.floor x else Int.ceil x) % 256).toNat

/-! ## Data model -/

/-- An `IDirectSoundBuffer *`: the identity of a producer-owned buffer. -/
abbrev Handle := Nat

/-- What the code reads from the object behind an `IDirectSoundBuffer *` at
one moment. The class is declared outside the embedded file; its members are
named as the code names them. -/
structure IDirectSoundBuffer (α : Type) where
  /-- member `bufferSize` -/
  bufferSize : Nat
  /-- member `sampleRate` -/
  sampleRate : Nat
  /-- member `channels` -/
  channels : Nat
  /-- the `DWORD` that `GetStatus` stores -/
  status : Nat
  /-- result of `GetLogarithmicVolume()` -/
  logarithmicVolume : α
  /-- result of `GetBytesInBuffer()` -/
  bytesInBuffer : Nat
  /-- result of `GetBufferUnderruns()` -/
  bufferUnderruns : Nat

/-- SDL's `SDL_AudioSpec`. `callback` records whether the callback is
`staticAudioCallback`; `userdata` is the buffer of the generator it points to. -/
structure SDL_AudioSpec where
  freq : Int
  format : Nat
  channels : Nat
  silence : Nat
  samples : Nat
  size : Nat
  callback : Bool
  userdata : Option Handle
  deriving DecidableEq

/-- Effect of `SDL_zero` on an `SDL_AudioSpec`. -/
def SDL_zero : SDL_AudioSpec :=
  { freq := 0, format := 0, channels := 0, silence := 0, samples := 0, size := 0,
    callback := false, userdata := none }

/-- Value of SDL's `AUDIO_S16LSB`. -/
def AUDIO_S16LSB : Nat := 0x8010

/-- Value of SDL's `SDL_AUDIO_MASK_BITSIZE`. -/
def SDL_AUDIO_MASK_BITSIZE : Nat := 0xFF

/-- The data members of `DirectSoundGenerator` (SDL build). -/
structure DirectSoundGenerator where
  myBuffer : Handle
  myMixerBuffer : List Nat
  myAudioDevice : Nat
  myAudioSpec : SDL_AudioSpec
  myBytesPerSecond : Nat
  deriving DecidableEq

/-- The fields of `sa2::SoundInfo` that `getInfo` assigns. -/
structure SoundInfo (α : Type) where
  running : Bool
  channels : Int
  volume : α
  numberOfUnderruns : Nat
  buffer : α
  size : α

/-- The global `activeSoundGenerators`, as the sequence of its
`(key, generator)` pairs in iteration order. -/
abbrev Registry := List (Handle × DirectSoundGenerator)

/-- Keys of a registry, in iteration order. -/
def Registry.keys (r : Registry) : List Handle := r.map Prod.fst

/-- Invariant of `std::unordered_map`: no key occurs twice. -/
def Registry.WF (r : Registry) : Prop := r.keys.Nodup

instance (r : Registry) : Decidable r.WF := by
  unfold Registry.WF; infer_instance

/-- Embedding of `activeSoundGenerators.find(buffer)`: the generator mapped to
`buffer`, `none` for `end()`. -/
def Registry.find (buffer : Handle) : Registry → Option DirectSoundGenerator
  | [] => none
  | (k, g) :: rest => if k = buffer then some g else Registry.find buffer rest

/-- Embedding of `activeSoundGenerators.erase(it)` for the iterator that
`find(buffer)` returned. -/
def Registry.erase (buffer : Handle) : Registry → Registry
  | [] => []
  | (k, g) :: rest => if k = buffer then rest else (k, g) :: Registry.erase buffer rest

/-- Embedding of `activeSoundGenerators[buffer] = generator`: the value of an
existing key is overwritten, a new key gets a new pair (the place of a new
pair in the iteration order is not fixed by `std::unordered_map`; the
embedding puts it last). -/
def Registry.assign (buffer : Handle) (generator : DirectSoundGenerator) : Registry → Registry
  | [] => [(buffer, generator)]
  | (k, g) :: rest =>
    if k = buffer then (k, generator) :: rest
    else (k, g) :: Registry.assign buffer generator rest

/-! ## `DirectSoundGenerator` -/

/-- Embedding of `getBytesPerSecond`. -/
def getBytesPerSecond (spec : SDL_AudioSpec) : Nat :=
  let bitsPerSample := spec.format &&& SDL_AUDIO_MASK_BITSIZE
  let bytesPerFrame := spec.channels * bitsPerSample % SIZE_T_MOD / 8
  (spec.freq % (SIZE_T_MOD : Int)).toNat * bytesPerFrame % SIZE_T_MOD

/-- Embedding of the constructor `DirectSoundGenerator(buffer)`. -/
def DirectSoundGenerator.new (buffer : Handle) : DirectSoundGenerator :=
  { myBuffer := buffer, myMixerBuffer := [], myAudioDevice := 0, myAudioSpec := SDL_zero,
    myBytesPerSecond := 0 }

/-- Embedding of `DirectSoundGenerator::close`. -/
def DirectSoundGenerator.close (g : DirectSoundGenerator) : DirectSoundGenerator :=
  { g with myAudioDevice := 0 }

/-- Embedding of `DirectSoundGenerator::isRunning`. -/
def DirectSoundGenerator.isRunning (g : DirectSoundGenerator) : Bool :=
  decide (g.myAudioDevice ≠ 0)

/-- Embedding of `DirectSoundGenerator::stop`. -/
def DirectSoundGenerator.stop (g : DirectSoundGenerator) : DirectSoundGenerator :=
  if g.myAudioDevice ≠ 0 then g.close else g

/-- Embedding of `DirectSoundGenerator::getInfo`. `buf` is the state of
`myBuffer`, `info` the default-constructed `sa2::SoundInfo`. -/
def DirectSoundGenerator.getInfo {α : Type} [LinearOrderedField α] (info : SoundInfo α)
    (buf : IDirectSoundBuffer α) (g : DirectSoundGenerator) : SoundInfo α :=
  let info := { info with
    running := g.isRunning
    channels := (g.myAudioSpec.channels : Int)
    volume := buf.logarithmicVolume
    numberOfUnderruns := buf.bufferUnderruns }
  if info.running = true ∧ g.myBytesPerSecond > 0 then
    let bytesInBuffer := buf.bytesInBuffer
    let coeff : α := 1.0 / (g.myBytesPerSecond : α)
    { info with buffer := (bytesInBuffer : α) * coeff, size := (buf.bufferSize : α) * coeff }
  else info

/-- The `SDL_AudioSpec want` that `writeAudio` builds, given the value `k`
returned by `nextPowerOf2`. `MAX_SAMPLES` is a constant of a header outside
the embedded file. -/
def wantSpec {α : Type} (MAX_SAMPLES : Nat) (buf : IDirectSoundBuffer α)
    (this : Handle) (k : Nat) : SDL_AudioSpec :=
  { SDL_zero with
    freq := Int.bmod (buf.sampleRate : Int) (2 ^ 32)
    format := AUDIO_S16LSB
    channels := buf.channels % 256
    samples := min (MAX_SAMPLES % SIZE_T_MOD) k % 65536
    callback := true
    userdata := some this }

/-- Embedding of `DirectSoundGenerator::writeAudio(ms)`. `buf` is the state of
`myBuffer`; `SDL_OpenAudioDevice` gives, for the wanted spec, the device id
SDL returns (`0` on failure) and the obtained spec it stores;
`DSBSTATUS_PLAYING` is a constant of a header outside the embedded file.
`none`: the call does not return. -/
def DirectSoundGenerator.writeAudio {α : Type} (MAX_SAMPLES DSBSTATUS_PLAYING : Nat)
    (SDL_OpenAudioDevice : SDL_AudioSpec → Nat × SDL_AudioSpec)
    (buf : IDirectSoundBuffer α) (g : DirectSoundGenerator) (ms : Nat) :
    Option DirectSoundGenerator :=
  if g.myAudioDevice ≠ 0 then some g
  else
    let dwStatus := buf.status
    if dwStatus &&& DSBSTATUS_PLAYING = 0 then some g
    else
      match nextPowerOf2 (buf.sampleRate * ms % SIZE_T_MOD / 1000) with
      | none => none
      | some k =>
        let want := wantSpec MAX_SAMPLES buf g.myBuffer k
        let opened := SDL_OpenAudioDevice want
        let g := { g with myAudioDevice := opened.1, myAudioSpec := opened.2 }
        if g.myAudioDevice ≠ 0 then
          some { g with myBytesPerSecond := getBytesPerSecond g.myAudioSpec }
        else some g

/-! ## The pull callback -/

/-- Embedding of `memset(p + off, val, n)` on the bytes `m` that start at `p`
(meaningful when the region lies inside `m`). -/
def memset (m : List Nat) (off val n : Nat) : List Nat :=
  m.take off ++ List.replicate n val ++ m.drop (off + n)

/-- Embedding of `memcpy(p + off, src, n)` on the bytes `m` that start at `p`
(meaningful when the region lies inside `m` and `src` holds `n` bytes). -/
def memcpy (m : List Nat) (off : Nat) (src : List Nat) (n : Nat) : List Nat :=
  m.take off ++ src.take n ++ m.drop (off + n)

/-- Embedding of `std::vector<Uint8>::resize(n)`. -/
def resize (v : List Nat) (n : Nat) : List Nat :=
  v.take n ++ List.replicate (n - v.length) 0

/-- What one call `myBuffer->Read(len, &lpvAudioPtr1, &dwAudioBytes1,
&lpvAudioPtr2, &dwAudioBytes2)` hands back: the returned byte count and the
four out-parameters. A pointer is `none` when null, else the bytes found at
its address. -/
structure ReadResult where
  bytesRead : Nat
  lpvAudioPtr1 : Option (List Nat)
  dwAudioBytes1 : Nat
  lpvAudioPtr2 : Option (List Nat)
  dwAudioBytes2 : Nat

/-- The bytes of the first span of a `Read`. -/
def ReadResult.span1 (rd : ReadResult) : List Nat :=
  (rd.lpvAudioPtr1.getD []).take rd.dwAudioBytes1

/-- The bytes of the second span of a `Read`. -/
def ReadResult.span2 (rd : ReadResult) : List Nat :=
  (rd.lpvAudioPtr2.getD []).take rd.dwAudioBytes2

/-- One guarded copy of `audioCallback`,
`if (lpvAudioPtr && dwAudioBytes) { memcpy(dest, lpvAudioPtr, dwAudioBytes); dest += dwAudioBytes; }`,
on the scratch buffer `mixer` with `dest` as an offset into it: the buffer and
the offset afterwards. -/
def copySpan (mixer : List Nat) (dest : Nat) (lpvAudioPtr : Option (List Nat))
    (dwAudioBytes : Nat) : List Nat × Nat :=
  match lpvAudioPtr with
  | some p =>
    if dwAudioBytes ≠ 0 then (memcpy mixer dest p dwAudioBytes, dest + dwAudioBytes)
    else (mixer, dest)
  | none => (mixer, dest)

/-- Embedding of `DirectSoundGenerator::mixBufferTo(stream)`: the bytes at
`stream` afterwards and the offset of the returned pointer. `log` is
`std::log`, `toUint8` the conversion of a `double` to `Uint8`, and
`SDL_MixAudioFormat dst src format len volume` gives the bytes SDL leaves in
`dst[0 .. len)`. -/
def DirectSoundGenerator.mixBufferTo {α : Type} [LT α] [∀ a b : α, Decidable (a < b)]
    [OfScientific α] [Neg α] [Sub α] [Div α] [Mul α] [NatCast α]
    (log : α → α) (toUint8 : α → Nat)
    (SDL_MixAudioFormat : List Nat → List Nat → Nat → Nat → Nat → List Nat)
    (buf : IDirectSoundBuffer α) (g : DirectSoundGenerator) (stream : List Nat) :
    List Nat × Nat :=
  let logVolume := buf.logarithmicVolume
  let svolume := svolume log toUint8 logVolume
  let len := g.myMixerBuffer.length
  let stream := memset stream 0 0 len
  let stream :=
    SDL_MixAudioFormat (stream.take len) g.myMixerBuffer g.myAudioSpec.format len svolume
      ++ stream.drop len
  (stream, len)

/-- Embedding of `DirectSoundGenerator::audioCallback(stream, len)`: the
generator and the bytes at `stream` afterwards. `rd` is what `myBuffer->Read`
hands back for this call. -/
def DirectSoundGenerator.audioCallback {α : Type} [LT α] [∀ a b : α, Decidable (a < b)]
    [OfScientific α] [Neg α] [Sub α] [Div α] [Mul α] [NatCast α]
    (log : α → α) (toUint8 : α → Nat)
    (SDL_MixAudioFormat : List Nat → List Nat → Nat → Nat → Nat → List Nat)
    (buf : IDirectSoundBuffer α) (rd : ReadResult) (g : DirectSoundGenerator)
    (stream : List Nat) (len : Nat) : DirectSoundGenerator × List Nat :=
  let bytesRead := rd.bytesRead
  let mixer := resize g.myMixerBuffer bytesRead
  let dest := 0
  let (mixer, dest) := copySpan mixer dest rd.lpvAudioPtr1 rd.dwAudioBytes1
  let (mixer, _) := copySpan mixer dest rd.lpvAudioPtr2 rd.dwAudioBytes2
  let g := { g with myMixerBuffer := mixer }
  let (stream, off) := g.mixBufferTo log toUint8 SDL_MixAudioFormat buf stream
  let gap := (len + SIZE_T_MOD - bytesRead % SIZE_T_MOD) % SIZE_T_MOD
  if gap ≠ 0 then (g, memset stream off g.myAudioSpec.silence gap) else (g, stream)

/-! ## Registry and facade -/

/-- Embedding of `registerSoundBuffer(buffer)`. -/
def registerSoundBuffer (r : Registry) (buffer : Handle) : Registry :=
  let generator := DirectSoundGenerator.new buffer
  r.assign buffer generator

/-- Embedding of `unregisterSoundBuffer(buffer)`. The found generator is
stopped and its pair erased; with the pair the only owner of the generator
goes, so the stopped generator is not part of the resulting state. -/
def unregisterSoundBuffer (r : Registry) (buffer : Handle) : Registry :=
  match r.find buffer with
  | some _ => r.erase buffer
  | none => r

/-- Embedding of `sa2::stopAudio`. -/
def sa2.stopAudio (r : Registry) : Registry :=
  r.map fun it => (it.1, it.2.stop)

/-- Embedding of `sa2::writeAudio(ms)`. `buffers` gives the state of each
producer buffer during the call. `none`: the call does not return. -/
def sa2.writeAudio {α : Type} (MAX_SAMPLES DSBSTATUS_PLAYING : Nat)
    (SDL_OpenAudioDevice : SDL_AudioSpec → Nat × SDL_AudioSpec)
    (buffers : Handle → IDirectSoundBuffer α) (ms : Nat) : Registry → Option Registry
  | [] => some []
  | (k, generator) :: rest =>
    match generator.writeAudio MAX_SAMPLES DSBSTATUS_PLAYING SDL_OpenAudioDevice
        (buffers generator.myBuffer) ms with
    | none => none
    | some g =>
      match sa2.writeAudio MAX_SAMPLES DSBSTATUS_PLAYING SDL_OpenAudioDevice buffers ms rest with
      | none => none
      | some rest => some ((k, g) :: rest)

/-- Embedding of `sa2::getAudioInfo`. -/
def sa2.getAudioInfo {α : Type} [LinearOrderedField α] (info : SoundInfo α)
    (buffers : Handle → IDirectSoundBuffer α) (r : Registry) : List (SoundInfo α) :=
  r.map fun it => it.2.getInfo info (buffers it.2.myBuffer)

/-- The circumstances of one `sa2::writeAudio` call: its argument, the state
of the producer buffers and the answers of `SDL_OpenAudioDevice` during it. -/
structure WriteCall (α : Type) where
  ms : Nat
  buffers : Handle → IDirectSoundBuffer α
  SDL_OpenAudioDevice : SDL_AudioSpec → Nat × SDL_AudioSpec

/-- A finite sequence of `sa2::writeAudio` calls, one after the other. -/
def writeAudioCalls {α : Type} (MAX_SAMPLES DSBSTATUS_PLAYING : Nat) :
    List (WriteCall α) → Registry → Option Registry
  | [], r => some r
  | c :: cs, r =>
    match sa2.writeAudio MAX_SAMPLES DSBSTATUS_PLAYING c.SDL_OpenAudioDevice c.buffers c.ms r with
    | none => none
    | some r => writeAudioCalls MAX_SAMPLES DSBSTATUS_PLAYING cs r

/-! ## Example data -/

/-- The producer buffer of the end-to-end scenario: playing (status bit `1`),
44100 Hz, 2 channels, logarithmic volume `0.5`. -/
def scenarioBuffer {α : Type} [LinearOrderedField α] : IDirectSoundBuffer α :=
  { bufferSize := 32768, sampleRate := 44100, channels := 2, status := 1,
    logarithmicVolume := 0.5, bytesInBuffer := 0, bufferUnderruns := 0 }

/-- An example mixer in the role of `SDL_MixAudioFormat`: byte by byte,
`dst + src * volume / 128`, saturated at `255`. -/
def exampleMix (dst src : List Nat) (_format _len volume : Nat) : List Nat :=
  List.zipWith (fun d s => min 255 (d + s * volume / 128)) dst
    (src ++ List.replicate dst.length 0)

/-- A generator whose negotiated format is unsigned 8-bit (`AUDIO_U8`, silence
value `0x80`), with device `2` open. -/
def exampleGenerator : DirectSoundGenerator :=
  { DirectSoundGenerator.new 1 with
    myAudioDevice := 2
    myAudioSpec := { SDL_zero with freq := 44100, format := 0x0008, channels := 1,
                                   silence := 0x80 }
    myBytesPerSecond := 44100 }

/-- The scenario buffer with its logarithmic volume set to `v`. -/
def bufferAtVolume (v : ℝ) : IDirectSoundBuffer ℝ :=
  { bufferSize := 32768, sampleRate := 44100, channels := 2, status := 1,
    logarithmicVolume := v, bytesInBuffer := 0, bufferUnderruns := 0 }

/-- An example of what `Read` hands back when 6 bytes are requested and 4 are
available, 3 before the wrap point and 1 after it. -/
def exampleRead : ReadResult :=
  { bytesRead := 4, lpvAudioPtr1 := some [10, 20, 30], dwAudioBytes1 := 3,
    lpvAudioPtr2 := some [40, 50], dwAudioBytes2 := 1 }

/-- A `SoundInfo` with every field zero. -/
def zeroInfo : SoundInfo ℚ :=
  { running := false, channels := 0, volume := 0, numberOfUnderruns := 0, buffer := 0,
    size := 0 }

/-! ## Theorems: `nextPowerOf2` -/

section PowerOfTwo

/-- Started at `2 ^ i`, the loop climbs to the first power of two that is not
below `n`, as long as that power fits a `size_t`. -/
theorem nextPowerOf2Loop_pow (n j : Nat) (hj : j ≤ 63) (hn : n ≤ 2 ^ j)
    (hlt : ∀ i, i < j → 2 ^ i < n) :
    ∀ d i fuel, i + d = j → d + 1 ≤ fuel → nextPowerOf2Loop n fuel (2 ^ i) = some (2 ^ j) := by
  intro d
  induction d with
  | zero =>
    intro i fuel hi hf
    obtain ⟨f, rfl⟩ : ∃ f, fuel = f + 1 := ⟨fuel - 1, by omega⟩
    have hij : i = j := by omega
    subst hij
    simp only [nextPowerOf2Loop, if_neg (not_lt.mpr hn)]
  | succ d ih =>
    intro i fuel hi hf
    obtain ⟨f, rfl⟩ : ∃ f, fuel = f + 1 := ⟨fuel - 1, by omega⟩
    have hlt' : 2 ^ i < n := hlt i (by omega)
    have hpow : 2 ^ i * 2 % SIZE_T_MOD = 2 ^ (i + 1) := by
      rw [← pow_succ]
      apply Nat.mod_eq_of_lt
      exact Nat.pow_lt_pow_right (by norm_num) (by omega)
    simp only [nextPowerOf2Loop, if_pos hlt', hpow]
    exact ih (i + 1) f (by omega) (by omega)

/-- Once `k` has wrapped to `0` the loop never exits. -/
theorem nextPowerOf2Loop_zero (n : Nat) (hn : 0 < n) :
    ∀ fuel, nextPowerOf2Loop n fuel 0 = none := by
  intro fuel
  induction fuel with
  | zero => rfl
  | succ f ih => simpa [nextPowerOf2Loop, hn] using ih

/-- For `n` above `2 ^ 63` no number of loop tests lets the loop exit: the
call does not return. -/
theorem nextPowerOf2Loop_diverges (n : Nat) (hn : 2 ^ 63 < n) :
    ∀ fuel i, i ≤ 63 → nextPowerOf2Loop n fuel (2 ^ i) = none := by
  intro fuel
  induction fuel with
  | zero => intro i _; rfl
  | succ f ih =>
    intro i hi
    have hlt : 2 ^ i < n := lt_of_le_of_lt (Nat.pow_le_pow_right (by norm_num) hi) hn
    simp only [nextPowerOf2Loop, if_pos hlt]
    rcases Nat.lt_or_ge i 63 with h | h
    · have hpow : 2 ^ i * 2 % SIZE_T_MOD = 2 ^ (i + 1) := by
        rw [← pow_succ]
        apply Nat.mod_eq_of_lt
        exact Nat.pow_lt_pow_right (by norm_num) (by omega)
      rw [hpow]
      exact ih (i + 1) (by omega)
    · have hi63 : i = 63 := by omega
      subst hi63
      have hz : 2 ^ 63 * 2 % SIZE_T_MOD = 0 := by decide
      rw [hz]
      exact nextPowerOf2Loop_zero n (by omega) f

/-- On `n ≤ 2 ^ 63` the call returns the power of two with exponent
`Nat.clog 2 n`. -/
theorem nextPowerOf2_eq_clog (n : Nat) (h2 : n ≤ 2 ^ 63) :
    nextPowerOf2 n = some (2 ^ Nat.clog 2 n) := by
  have hj : Nat.clog 2 n ≤ 63 := (Nat.le_pow_iff_clog_le (by norm_num)).mp h2
  have h := nextPowerOf2Loop_pow n (Nat.clog 2 n) hj (Nat.le_pow_clog (by norm_num) n)
    (fun i hi => (Nat.pow_lt_iff_lt_clog (by norm_num)).mpr hi) (Nat.clog 2 n) 0 65
    (by omega) (by omega)
  simpa [nextPowerOf2] using h

/-- The argument `sampleRate * ms / 1000` that `writeAudio` passes, computed
in `size_t`, is below `2 ^ 63`. -/
theorem writeAudio_arg_le (sampleRate ms : Nat) :
    sampleRate * ms % SIZE_T_MOD / 1000 ≤ 2 ^ 63 := by
  have h : sampleRate * ms % SIZE_T_MOD < SIZE_T_MOD := Nat.mod_lt _ (by decide)
  have h' : SIZE_T_MOD = 2 ^ 64 := rfl
  rw [h'] at h ⊢
  omega

end PowerOfTwo

/-! ## Theorems: registry -/

section RegistryLemmas

theorem Registry.find_eq_none_of_not_mem (h : Handle) :
    ∀ r : Registry, h ∉ r.keys → r.find h = none
  | [], _ => rfl
  | (k, g) :: rest, hk => by
    have hne : k ≠ h := fun e => hk (by simp [Registry.keys, e])
    have hrest : h ∉ Registry.keys rest := fun m => hk (by
      simp only [Registry.keys, List.map_cons, List.mem_cons]
      exact Or.inr m)
    simp only [Registry.find, if_neg hne]
    exact Registry.find_eq_none_of_not_mem h rest hrest

theorem Registry.mem_keys_of_find (h : Handle) (g : DirectSoundGenerator) :
    ∀ r : Registry, r.find h = some g → h ∈ r.keys := by
  intro r hf
  by_contra hn
  rw [Registry.find_eq_none_of_not_mem h r hn] at hf
  exact Option.noConfusion hf

theorem Registry.keys_erase (h : Handle) :
    ∀ r : Registry, (r.erase h).keys = r.keys.erase h
  | [] => rfl
  | (k, g) :: rest => by
    by_cases hk : k = h
    · subst hk
      simp [Registry.erase, Registry.keys]
    · have ih := Registry.keys_erase h rest
      simp only [Registry.keys] at ih
      simp [Registry.erase, Registry.keys, hk, ih, List.erase_cons_tail]

theorem Registry.WF_erase (h : Handle) (r : Registry) (hwf : r.WF) : (r.erase h).WF := by
  unfold Registry.WF at *
  rw [Registry.keys_erase]
  exact hwf.erase h

theorem Registry.find_erase_self (h : Handle) (r : Registry) (hwf : r.WF) :
    (r.erase h).find h = none := by
  apply Registry.find_eq_none_of_not_mem
  rw [Registry.keys_erase]
  exact hwf.not_mem_erase

theorem Registry.find_erase_ne (h k : Handle) (hne : k ≠ h) :
    ∀ r : Registry, (r.erase h).find k = r.find k
  | [] => rfl
  | (k', g) :: rest => by
    by_cases hk : k' = h
    · subst hk
      have hk' : ¬ k' = k := fun e => hne e.symm
      simp only [Registry.erase, Registry.find, if_true, if_neg hk']
    · by_cases hkk : k' = k
      · subst hkk
        simp only [Registry.erase, Registry.find, if_neg hk, if_true]
      · simp only [Registry.erase, Registry.find, if_neg hk, if_neg hkk]
        exact Registry.find_erase_ne h k hne rest

theorem Registry.find_assign_self (h : Handle) (gen : DirectSoundGenerator) :
    ∀ r : Registry, (r.assign h gen).find h = some gen
  | [] => by simp [Registry.assign, Registry.find]
  | (k, g) :: rest => by
    by_cases hk : k = h
    · simp [Registry.assign, Registry.find, hk]
    · simp [Registry.assign, Registry.find, hk, Registry.find_assign_self h gen rest]

theorem Registry.find_assign_ne (h k : Handle) (hne : k ≠ h) (gen : DirectSoundGenerator) :
    ∀ r : Registry, (r.assign h gen).find k = r.find k
  | [] => by simp only [Registry.assign, Registry.find, if_neg (Ne.symm hne)]
  | (k', g) :: rest => by
    by_cases hk : k' = h
    · subst hk
      have hk' : ¬ k' = k := fun e => hne e.symm
      simp only [Registry.assign, Registry.find, if_true, if_neg hk']
    · by_cases hkk : k' = k
      · subst hkk
        simp only [Registry.assign, Registry.find, if_neg hk, if_true]
      · simp only [Registry.assign, Registry.find, if_neg hk, if_neg hkk]
        exact Registry.find_assign_ne h k hne gen rest

theorem Registry.keys_assign (h : Handle) (gen : DirectSoundGenerator) :
    ∀ r : Registry, (r.assign h gen).keys = if h ∈ r.keys then r.keys else r.keys ++ [h]
  | [] => by simp [Registry.assign, Registry.keys]
  | (k, g) :: rest => by
    have ih := Registry.keys_assign h gen rest
    simp only [Registry.keys] at ih
    by_cases hk : k = h
    · simp [Registry.assign, Registry.keys, hk]
    · have hk' : ¬ h = k := fun e => hk e.symm
      by_cases hm : h ∈ List.map Prod.fst rest
      · simp [Registry.assign, Registry.keys, hk, hk', hm, ih]
      · simp [Registry.assign, Registry.keys, hk, hk', hm, ih]

theorem Registry.WF_assign (h : Handle) (gen : DirectSoundGenerator) (r : Registry)
    (hwf : r.WF) : (r.assign h gen).WF := by
  unfold Registry.WF at *
  rw [Registry.keys_assign]
  by_cases hm : h ∈ r.keys
  · simpa [hm] using hwf
  · simp only [hm, if_false]
    exact List.Nodup.append hwf (List.nodup_singleton h) (by simpa using hm)

end RegistryLemmas

/-! ## Theorems: stopping -/

section StopLemmas

theorem DirectSoundGenerator.stop_eq (g : DirectSoundGenerator) :
    g.stop = { g with myAudioDevice := 0 } := by
  unfold DirectSoundGenerator.stop DirectSoundGenerator.close
  by_cases h : g.myAudioDevice = 0
  · cases g
    simp only at h
    subst h
    simp
  · simp [h]

theorem DirectSoundGenerator.stop_of_closed (g : DirectSoundGenerator)
    (h : g.myAudioDevice = 0) : g.stop = g := by
  simp [DirectSoundGenerator.stop, h]

theorem DirectSoundGenerator.stop_stop (g : DirectSoundGenerator) : g.stop.stop = g.stop := by
  apply DirectSoundGenerator.stop_of_closed
  rw [DirectSoundGenerator.stop_eq]

end StopLemmas

/-! ## Theorems: autostart -/

section WriteLemmas

theorem DirectSoundGenerator.getInfo_running {α : Type} [LinearOrderedField α]
    (info : SoundInfo α) (buf : IDirectSoundBuffer α) (g : DirectSoundGenerator) :
    (g.getInfo info buf).running = g.isRunning := by
  unfold DirectSoundGenerator.getInfo
  by_cases h : g.isRunning = true ∧ g.myBytesPerSecond > 0 <;> simp [h]

theorem DirectSoundGenerator.getInfo_channels {α : Type} [LinearOrderedField α]
    (info : SoundInfo α) (buf : IDirectSoundBuffer α) (g : DirectSoundGenerator) :
    (g.getInfo info buf).channels = (g.myAudioSpec.channels : Int) := by
  unfold DirectSoundGenerator.getInfo
  by_cases h : g.isRunning = true ∧ g.myBytesPerSecond > 0 <;> simp [h]

theorem DirectSoundGenerator.getInfo_volume {α : Type} [LinearOrderedField α]
    (info : SoundInfo α) (buf : IDirectSoundBuffer α) (g : DirectSoundGenerator) :
    (g.getInfo info buf).volume = buf.logarithmicVolume := by
  unfold DirectSoundGenerator.getInfo
  by_cases h : g.isRunning = true ∧ g.myBytesPerSecond > 0 <;> simp [h]

/-- One `writeAudio` on a generator always returns; it keeps `myBuffer`, and
the device is open afterwards exactly when it was open before or the buffer
was playing and SDL opened a device. When SDL opens a device, the spec it
obtained is the one stored. -/
theorem generator_writeAudio_spec {α : Type} (M P : Nat)
    (sdlOpen : SDL_AudioSpec → Nat × SDL_AudioSpec) (buf : IDirectSoundBuffer α)
    (g : DirectSoundGenerator) (ms : Nat) :
    ∃ g', g.writeAudio M P sdlOpen buf ms = some g' ∧ g'.myBuffer = g.myBuffer ∧
      (g'.myAudioDevice ≠ 0 ↔ g.myAudioDevice ≠ 0 ∨
        (buf.status &&& P ≠ 0 ∧
          ∃ k, nextPowerOf2 (buf.sampleRate * ms % SIZE_T_MOD / 1000) = some k ∧
            (sdlOpen (wantSpec M buf g.myBuffer k)).1 ≠ 0)) ∧
      (g.myAudioDevice = 0 → buf.status &&& P ≠ 0 →
        ∀ k, nextPowerOf2 (buf.sampleRate * ms % SIZE_T_MOD / 1000) = some k →
          (sdlOpen (wantSpec M buf g.myBuffer k)).1 ≠ 0 →
          g'.myAudioSpec = (sdlOpen (wantSpec M buf g.myBuffer k)).2) := by
  have hk := nextPowerOf2_eq_clog _ (writeAudio_arg_le buf.sampleRate ms)
  unfold DirectSoundGenerator.writeAudio
  by_cases hd : g.myAudioDevice = 0
  · by_cases hs : buf.status &&& P = 0
    · refine ⟨g, by simp [hd, hs], rfl, ?_, fun _ h => absurd hs h⟩
      simp [hd, hs]
    · simp only [hd, ne_eq, not_true_eq_false, if_false, hs, hk]
      by_cases ho : (sdlOpen (wantSpec M buf g.myBuffer
          (2 ^ Nat.clog 2 (buf.sampleRate * ms % SIZE_T_MOD / 1000)))).1 = 0
      · rw [if_neg (not_not.mpr ho)]
        refine ⟨_, rfl, rfl, ?_, ?_⟩
        · simp [hd, hs, ho]
        · intro _ _ k hk' hne
          cases hk'
          exact absurd ho hne
      · rw [if_pos ho]
        refine ⟨_, rfl, rfl, ?_, ?_⟩
        · simp [hd, hs, ho]
        · intro _ _ k hk' _
          cases hk'
          rfl
  · refine ⟨g, by simp [hd], rfl, ?_, fun h => absurd h hd⟩
    simp [hd]

/-- One `sa2::writeAudio` always returns; it keeps the keys and applies
`writeAudio` to the generator of every handle. -/
theorem registry_writeAudio_spec {α : Type} (M P : Nat)
    (sdlOpen : SDL_AudioSpec → Nat × SDL_AudioSpec)
    (buffers : Handle → IDirectSoundBuffer α) (ms : Nat) :
    ∀ r : Registry, ∃ r', sa2.writeAudio M P sdlOpen buffers ms r = some r' ∧
      r'.keys = r.keys ∧
      ∀ h, r'.find h =
        (r.find h).bind fun g => g.writeAudio M P sdlOpen (buffers g.myBuffer) ms
  | [] => ⟨[], rfl, rfl, fun _ => rfl⟩
  | (k, g) :: rest => by
    obtain ⟨g', hg', -, -⟩ :=
      generator_writeAudio_spec M P sdlOpen (buffers g.myBuffer) g ms
    obtain ⟨rest', hrest, hkeys, hfind⟩ := registry_writeAudio_spec M P sdlOpen buffers ms rest
    refine ⟨(k, g') :: rest', by simp only [sa2.writeAudio, hg', hrest], ?_, fun h => ?_⟩
    · simp only [Registry.keys, List.map_cons] at hkeys ⊢
      rw [hkeys]
    · by_cases hk : k = h
      · simp only [Registry.find, if_pos hk, Option.some_bind, hg']
      · simp only [Registry.find, if_neg hk]
        exact hfind h

theorem Registry.mem_of_find (h : Handle) (g : DirectSoundGenerator) :
    ∀ r : Registry, r.find h = some g → (h, g) ∈ r
  | [], hf => Option.noConfusion hf
  | (k, g') :: rest, hf => by
    by_cases hk : k = h
    · simp only [Registry.find, if_pos hk, Option.some.injEq] at hf
      rw [hk, hf]
      exact List.mem_cons_self _ _
    · simp only [Registry.find, if_neg hk] at hf
      exact List.mem_cons_of_mem _ (Registry.mem_of_find h g rest hf)

theorem sa2.getInfo_mem_getAudioInfo {α : Type} [LinearOrderedField α] (info : SoundInfo α)
    (buffers : Handle → IDirectSoundBuffer α) (r : Registry) (h : Handle)
    (g : DirectSoundGenerator) (hf : r.find h = some g) (hb : g.myBuffer = h) :
    g.getInfo info (buffers h) ∈ sa2.getAudioInfo info buffers r := by
  unfold sa2.getAudioInfo
  rw [List.mem_map]
  exact ⟨(h, g), Registry.mem_of_find h g r hf, by simp only [hb]⟩

/-- A sequence of `sa2::writeAudio` calls always returns; the keys stay, the
generator registered for `h` keeps pointing at `h`, and its device is open at
the end exactly when it was open at the start or some call of the sequence
found `h` playing and had SDL open a device. -/
theorem writeAudioCalls_spec {α : Type} (M P : Nat) (h : Handle) :
    ∀ (cs : List (WriteCall α)) (r : Registry) (g : DirectSoundGenerator),
      r.find h = some g → g.myBuffer = h →
      ∃ r' g', writeAudioCalls M P cs r = some r' ∧ r'.keys = r.keys ∧
        r'.find h = some g' ∧ g'.myBuffer = h ∧
        (g'.myAudioDevice ≠ 0 ↔ g.myAudioDevice ≠ 0 ∨
          ∃ c, c ∈ cs ∧ (c.buffers h).status &&& P ≠ 0 ∧
            ∃ k, nextPowerOf2 ((c.buffers h).sampleRate * c.ms % SIZE_T_MOD / 1000) = some k ∧
              (c.SDL_OpenAudioDevice (wantSpec M (c.buffers h) h k)).1 ≠ 0)
  | [], r, g, hf, hb => ⟨r, g, rfl, rfl, hf, hb, by simp⟩
  | c :: cs, r, g, hf, hb => by
    obtain ⟨r1, hr1, hkeys1, hfind1⟩ :=
      registry_writeAudio_spec M P c.SDL_OpenAudioDevice c.buffers c.ms r
    obtain ⟨g1, hg1, hb1, hiff1, -⟩ :=
      generator_writeAudio_spec M P c.SDL_OpenAudioDevice (c.buffers g.myBuffer) g c.ms
    have hf1 : r1.find h = some g1 := by
      rw [hfind1 h, hf, Option.some_bind, hg1]
    rw [hb] at hb1 hiff1
    obtain ⟨r', g', hr', hkeys', hf', hb', hiff'⟩ := writeAudioCalls_spec M P h cs r1 g1 hf1 hb1
    refine ⟨r', g', by simp only [writeAudioCalls, hr1, hr'], hkeys'.trans hkeys1, hf', hb', ?_⟩
    rw [hiff', hiff1]
    constructor
    · rintro ((hd | hc) | ⟨c', hc', hrest⟩)
      · exact Or.inl hd
      · exact Or.inr ⟨c, List.mem_cons_self _ _, hc⟩
      · exact Or.inr ⟨c', List.mem_cons_of_mem _ hc', hrest⟩
    · rintro (hd | ⟨c', hc', hrest⟩)
      · exact Or.inl (Or.inl hd)
      · rcases List.mem_cons.mp hc' with e | hin
        · subst e
          exact Or.inl (Or.inr hrest)
        · exact Or.inr ⟨c', hin, hrest⟩

/-- The end-to-end scenario in general form: register `h1`, then one
`sa2::writeAudio` while `h1` plays and SDL opens a device, keeping the wanted
channel count. -/
theorem sa2.writeAudio_after_register {α : Type} [LinearOrderedField α] (M P : Nat)
    (info : SoundInfo α) (sdlOpen : SDL_AudioSpec → Nat × SDL_AudioSpec)
    (buffers : Handle → IDirectSoundBuffer α) (r : Registry) (h1 ms : Nat)
    (hplay : (buffers h1).status &&& P ≠ 0)
    (hopen : ∀ want, (sdlOpen want).1 ≠ 0 ∧ (sdlOpen want).2.channels = want.channels) :
    ∃ r' g, sa2.writeAudio M P sdlOpen buffers ms (registerSoundBuffer r h1) = some r' ∧
      r'.find h1 = some g ∧
      g.getInfo info (buffers h1) ∈ sa2.getAudioInfo info buffers r' ∧
      (g.getInfo info (buffers h1)).running = true ∧
      (g.getInfo info (buffers h1)).channels = (((buffers h1).channels % 256 : Nat) : Int) ∧
      (g.getInfo info (buffers h1)).volume = (buffers h1).logarithmicVolume := by
  have hf : (registerSoundBuffer r h1).find h1 = some (DirectSoundGenerator.new h1) :=
    Registry.find_assign_self h1 _ r
  obtain ⟨r', hr', -, hfind⟩ :=
    registry_writeAudio_spec M P sdlOpen buffers ms (registerSoundBuffer r h1)
  obtain ⟨g, hg, hb, hiff, hspec⟩ :=
    generator_writeAudio_spec M P sdlOpen (buffers h1) (DirectSoundGenerator.new h1) ms
  have hk := nextPowerOf2_eq_clog _ (writeAudio_arg_le (buffers h1).sampleRate ms)
  have hf' : r'.find h1 = some g := by
    rw [hfind h1, hf, Option.some_bind]
    exact hg
  have hdev : g.myAudioDevice ≠ 0 := hiff.mpr (Or.inr ⟨hplay, _, hk, (hopen _).1⟩)
  have hsp := hspec rfl hplay _ hk (hopen _).1
  refine ⟨r', g, hr', hf', sa2.getInfo_mem_getAudioInfo info buffers r' h1 g hf' hb, ?_, ?_,
    DirectSoundGenerator.getInfo_volume info _ g⟩
  · rw [DirectSoundGenerator.getInfo_running]
    simp [DirectSoundGenerator.isRunning, hdev]
  · rw [DirectSoundGenerator.getInfo_channels, hsp, (hopen _).2]
    rfl

end WriteLemmas

/-! ## Theorems: the pull callback -/

section CallbackLemmas

theorem length_resize (v : List Nat) (n : Nat) : (resize v n).length = n := by
  simp only [resize, List.length_append, List.length_take, List.length_replicate]
  omega

theorem memcpy_zero_bytes (m : List Nat) (off : Nat) (src : List Nat) :
    memcpy m off src 0 = m := by
  simp [memcpy]

theorem copySpan_eq (mixer : List Nat) (dest : Nat) (p : Option (List Nat)) (n : Nat)
    (hp : n ≠ 0 → ∃ m, p = some m ∧ n ≤ m.length) :
    copySpan mixer dest p n = (memcpy mixer dest (p.getD []) n, dest + n) := by
  unfold copySpan
  cases p with
  | none =>
    have h0 : n = 0 := by
      by_contra hne
      obtain ⟨m, hm, -⟩ := hp hne
      exact Option.noConfusion hm
    subst h0
    simp [memcpy_zero_bytes]
  | some q =>
    by_cases h0 : n = 0
    · subst h0
      simp [memcpy_zero_bytes]
    · simp [h0]

/-- Copying `n1` bytes to the start of a buffer of `n1 + n2` bytes and `n2`
bytes right behind them fills the buffer with the two spans, in that order. -/
theorem memcpy_two_spans (m s1 s2 : List Nat) (n1 n2 : Nat) (hm : m.length = n1 + n2)
    (h1 : n1 ≤ s1.length) :
    memcpy (memcpy m 0 s1 n1) n1 s2 n2 = s1.take n1 ++ s2.take n2 := by
  have hl1 : (s1.take n1).length = n1 := by simp [List.length_take, h1]
  have hfirst : memcpy m 0 s1 n1 = s1.take n1 ++ m.drop n1 := by simp [memcpy]
  rw [hfirst]
  unfold memcpy
  have htake : (s1.take n1 ++ m.drop n1).take n1 = s1.take n1 := by
    rw [List.take_append_of_le_length (by omega), List.take_of_length_le (by omega)]
  have hdrop : (s1.take n1 ++ m.drop n1).drop (n1 + n2) = [] := by
    apply List.drop_of_length_le
    simp only [List.length_append, List.length_drop, hl1]
    omega
  rw [htake, hdrop, List.append_nil]

/-- The scratch buffer after the two conditional copies of `audioCallback`
holds the first span followed by the second, and the output is the mix onto
zeros followed by what the gap test writes. -/
theorem audioCallback_mixer {α : Type} [LT α] [∀ a b : α, Decidable (a < b)]
    [OfScientific α] [Neg α] [Sub α] [Div α] [Mul α] [NatCast α]
    (log : α → α) (toUint8 : α → Nat)
    (mix : List Nat → List Nat → Nat → Nat → Nat → List Nat)
    (buf : IDirectSoundBuffer α) (rd : ReadResult) (g : DirectSoundGenerator)
    (stream : List Nat) (len : Nat)
    (hsum : rd.dwAudioBytes1 + rd.dwAudioBytes2 = rd.bytesRead)
    (hp1 : rd.dwAudioBytes1 ≠ 0 →
      ∃ m, rd.lpvAudioPtr1 = some m ∧ rd.dwAudioBytes1 ≤ m.length)
    (hp2 : rd.dwAudioBytes2 ≠ 0 →
      ∃ m, rd.lpvAudioPtr2 = some m ∧ rd.dwAudioBytes2 ≤ m.length) :
    (g.audioCallback log toUint8 mix buf rd stream len).1 =
      { g with myMixerBuffer := rd.span1 ++ rd.span2 } ∧
    (g.audioCallback log toUint8 mix buf rd stream len).2 =
      (let mixed := mix (List.replicate rd.bytesRead 0) (rd.span1 ++ rd.span2)
          g.myAudioSpec.format rd.bytesRead
          (toUint8 (linVolume log buf.logarithmicVolume * ((128 : Nat) : α)))
        let gap := (len + SIZE_T_MOD - rd.bytesRead % SIZE_T_MOD) % SIZE_T_MOD
        let s := mixed ++ stream.drop rd.bytesRead
        if gap ≠ 0 then memset s rd.bytesRead g.myAudioSpec.silence gap else s) := by
  obtain ⟨A, p1, n1, p2, n2⟩ := rd
  simp only at hsum hp1 hp2
  have hM0 := length_resize g.myMixerBuffer A
  have hmemset : ∀ (l : List Nat) (n : Nat),
      (memset l 0 0 n).take n = List.replicate n 0 ∧ (memset l 0 0 n).drop n = l.drop n := by
    intro l n
    constructor
    · simp [memset, List.take_append_of_le_length]
    · simp [memset, List.drop_append_of_le_length]
  have hlen1 : ((p1.getD []).take n1).length = n1 := by
    by_cases h0 : n1 = 0
    · simp [h0]
    · obtain ⟨m, hm, hle⟩ := hp1 h0
      simp [hm, hle]
  have hlen2 : ((p2.getD []).take n2).length = n2 := by
    by_cases h0 : n2 = 0
    · simp [h0]
    · obtain ⟨m, hm, hle⟩ := hp2 h0
      simp [hm, hle]
  have hlenm : ((p1.getD []).take n1 ++ (p2.getD []).take n2).length = A := by
    rw [List.length_append, hlen1, hlen2, hsum]
  have hmixer : memcpy (memcpy (resize g.myMixerBuffer A) 0 (p1.getD []) n1) n1 (p2.getD []) n2 =
      (p1.getD []).take n1 ++ (p2.getD []).take n2 := by
    have h := memcpy_two_spans (resize g.myMixerBuffer A) ((p1.getD []).take n1) (p2.getD [])
      n1 n2 (by omega) (by omega)
    simpa [memcpy, List.take_take] using h
  simp only [DirectSoundGenerator.audioCallback, DirectSoundGenerator.mixBufferTo, svolume,
    SDL_MIX_MAXVOLUME, copySpan_eq _ _ _ _ hp1, copySpan_eq _ _ _ _ hp2, zero_add, hmixer,
    ReadResult.span1, ReadResult.span2]
  rw [hlenm, (hmemset stream A).1, (hmemset stream A).2]
  by_cases hgap : (len + SIZE_T_MOD - A % SIZE_T_MOD) % SIZE_T_MOD = 0
  · simp [hgap]
  · simp [hgap]

end CallbackLemmas

/-! ## Theorems: volume conversion on exact reals

The lemmas of this section take `α = ℝ` and `std::log = Real.log`; they bound
the value of the formula and say nothing about rounding. -/

section Volume

theorem log_hundred_pos : 0 < Real.log 100 :=
  Real.log_pos (by norm_num)

/-- Below or at the threshold the source evaluates the logarithmic branch. -/
theorem linVolume_of_le {v : ℝ} (h : v ≤ 0.99) :
    linVolume Real.log v = -Real.log (1 - v) / Real.log 100 := by
  have h1 : ¬ v > 0.99 := not_lt.mpr h
  simp only [linVolume, if_neg h1]
  norm_num

/-- Strictly above the threshold the source yields the constant `1.0`. -/
theorem linVolume_of_gt {v : ℝ} (h : 0.99 < v) : linVolume Real.log v = 1 := by
  simp only [linVolume, if_pos (show v > 0.99 from h)]
  norm_num

theorem linVolume_le_one (v : ℝ) : linVolume Real.log v ≤ 1 := by
  rcases le_or_lt v 0.99 with h | h
  · rw [linVolume_of_le h, div_le_one log_hundred_pos]
    have h1 : (100 : ℝ)⁻¹ ≤ 1 - v := by norm_num at h ⊢; linarith
    have h2 := Real.log_le_log (by norm_num) h1
    rw [Real.log_inv] at h2
    linarith
  · exact (linVolume_of_gt h).le

theorem linVolume_nonneg {v : ℝ} (h0 : 0 ≤ v) : 0 ≤ linVolume Real.log v := by
  rcases le_or_lt v 0.99 with h | h
  · rw [linVolume_of_le h]
    apply div_nonneg _ log_hundred_pos.le
    have h1 : 0 ≤ 1 - v := by norm_num at h; linarith
    have h2 := Real.log_nonpos h1 (by linarith)
    linarith
  · rw [linVolume_of_gt h]; exact zero_le_one

/-- At `v = 0.5` the conversion formula gives `ln 2 / ln 100`, a value between
`1 / 7` and `1 / 6`. -/
theorem linVolume_half :
    linVolume Real.log 0.5 = Real.log 2 / Real.log 100 ∧
    1 / 7 ≤ linVolume Real.log 0.5 ∧ linVolume Real.log 0.5 ≤ 1 / 6 := by
  have h2 : 0 < Real.log 2 := Real.log_pos (by norm_num)
  have heq : linVolume Real.log 0.5 = Real.log 2 / Real.log 100 := by
    rw [linVolume_of_le (by norm_num)]
    have h : (1 : ℝ) - 0.5 = 2⁻¹ := by norm_num
    rw [h, Real.log_inv, neg_neg]
  have h6 : 6 * Real.log 2 ≤ Real.log 100 := by
    have h := Real.log_le_log (by norm_num : (0 : ℝ) < 2 ^ 6) (by norm_num : (2 : ℝ) ^ 6 ≤ 100)
    rwa [Real.log_pow, Nat.cast_ofNat] at h
  have h7 : Real.log 100 ≤ 7 * Real.log 2 := by
    have h := Real.log_le_log (by norm_num : (0 : ℝ) < 100) (by norm_num : (100 : ℝ) ≤ 2 ^ 7)
    rwa [Real.log_pow, Nat.cast_ofNat] at h
  refine ⟨heq, ?_, ?_⟩
  · rw [heq, div_le_div_iff₀ (by norm_num) log_hundred_pos]
    linarith
  · rw [heq, div_le_div_iff₀ log_hundred_pos (by norm_num)]
    linarith

end Volume

/-! ## Main results -/

section Claims

/-- C2, as stated, fails: at the out-of-domain input `v = -1` the gain that
`mixBufferTo` computes is not in `[0, 1]`. -/
theorem linVolume_not_clamped :
    ¬ (0 ≤ linVolume Real.log (-1) ∧ linVolume Real.log (-1) ≤ 1) := by
  intro h
  have hlt : linVolume Real.log (-1) < 0 := by
    rw [linVolume_of_le (by norm_num)]
    have h2 : (1 : ℝ) - -1 = 2 := by norm_num
    rw [h2]
    exact div_neg_of_neg_of_pos (neg_lt_zero.mpr (Real.log_pos (by norm_num)))
      log_hundred_pos
  exact absurd h.1 (not_le.mpr hlt)

/-- C2, amended. For every real logarithmic volume `v ≥ 0` the gain that
`mixBufferTo` computes lies in `[0, 1]`, and the derived 8-bit mix volume
`Uint8(gain * SDL_MIX_MAXVOLUME)` lies in `0 .. 128`. -/
theorem linVolume_range (v : ℝ) (h0 : 0 ≤ v) :
    0 ≤ linVolume Real.log v ∧ linVolume Real.log v ≤ 1 ∧
    svolume Real.log truncUint8 v ≤ SDL_MIX_MAXVOLUME ∧ SDL_MIX_MAXVOLUME = 128 := by
  have hlo := linVolume_nonneg h0
  have hhi := linVolume_le_one v
  refine ⟨hlo, hhi, ?_, rfl⟩
  have hx0 : 0 ≤ linVolume Real.log v * ((SDL_MIX_MAXVOLUME : Nat) : ℝ) :=
    mul_nonneg hlo (Nat.cast_nonneg _)
  have hx1 : linVolume Real.log v * ((SDL_MIX_MAXVOLUME : Nat) : ℝ) ≤ 128 := by
    have h128 : ((SDL_MIX_MAXVOLUME : Nat) : ℝ) = 128 := by norm_num [SDL_MIX_MAXVOLUME]
    rw [h128]
    linarith
  have hf0 : 0 ≤ Int.floor (linVolume Real.log v * ((SDL_MIX_MAXVOLUME : Nat) : ℝ)) :=
    Int.floor_nonneg.mpr hx0
  have hf1 : Int.floor (linVolume Real.log v * ((SDL_MIX_MAXVOLUME : Nat) : ℝ)) ≤ 128 := by
    have h := Int.floor_le (linVolume Real.log v * ((SDL_MIX_MAXVOLUME : Nat) : ℝ))
    exact_mod_cast h.trans hx1
  have h128' : SDL_MIX_MAXVOLUME = 128 := rfl
  unfold svolume truncUint8
  rw [if_pos hx0]
  omega

/-- Instance of the amended C2 at `v = 0.5`. -/
theorem linVolume_range_witness :
    (0 : ℝ) ≤ 0.5 ∧ 0 ≤ linVolume Real.log 0.5 ∧ linVolume Real.log 0.5 ≤ 1 ∧
    svolume Real.log truncUint8 0.5 ≤ SDL_MIX_MAXVOLUME ∧ SDL_MIX_MAXVOLUME = 128 :=
  ⟨by norm_num, linVolume_range 0.5 (by norm_num)⟩

/-- C10. `nextPowerOf2` returns the least power of two not below its
argument: for `1 ≤ n ≤ 2 ^ 63` the loop exits and the result is `2 ^ j` with
`n ≤ 2 ^ j` and `2 ^ j / 2 < n`; a power of two is returned unchanged;
`nextPowerOf2 0 = 1`. The call made by `writeAudio` therefore returns, and
the sample count `min(MAX_SAMPLES, nextPowerOf2(sampleRate * ms / 1000))`,
also after its conversion to the 16-bit field of the wanted spec, does not
exceed `MAX_SAMPLES`. -/
theorem nextPowerOf2_least_power :
    (∀ n, 1 ≤ n → n ≤ 2 ^ 63 →
      ∃ j, nextPowerOf2 n = some (2 ^ j) ∧ n ≤ 2 ^ j ∧ 2 ^ j / 2 < n) ∧
    (∀ i, i ≤ 63 → nextPowerOf2 (2 ^ i) = some (2 ^ i)) ∧
    nextPowerOf2 0 = some 1 ∧
    (∀ (α : Type) (MAX_SAMPLES this ms : Nat) (buf : IDirectSoundBuffer α),
      ∃ k, nextPowerOf2 (buf.sampleRate * ms % SIZE_T_MOD / 1000) = some k ∧
        min MAX_SAMPLES k ≤ MAX_SAMPLES ∧
        (wantSpec MAX_SAMPLES buf this k).samples ≤ MAX_SAMPLES) := by
  refine ⟨fun n h1 h2 => ⟨Nat.clog 2 n, nextPowerOf2_eq_clog n h2,
    Nat.le_pow_clog (by norm_num) n, ?_⟩, fun i hi => ?_, rfl, fun α M this ms buf => ?_⟩
  · rcases Nat.eq_zero_or_pos (Nat.clog 2 n) with h0 | hpos
    · rw [h0]; exact h1
    · obtain ⟨m, hm⟩ : ∃ m, Nat.clog 2 n = m + 1 := ⟨Nat.clog 2 n - 1, by omega⟩
      have hlt : 2 ^ m < n := (Nat.pow_lt_iff_lt_clog (by norm_num)).mpr (by omega)
      rw [hm, pow_succ, Nat.mul_div_cancel _ (by norm_num)]
      exact hlt
  · have h := nextPowerOf2_eq_clog (2 ^ i) (Nat.pow_le_pow_right (by norm_num) hi)
    rwa [Nat.clog_pow 2 i (by norm_num)] at h
  · refine ⟨_, nextPowerOf2_eq_clog _ (writeAudio_arg_le buf.sampleRate ms),
      Nat.min_le_left _ _, ?_⟩
    show min (M % SIZE_T_MOD) _ % 65536 ≤ M
    exact le_trans (Nat.mod_le _ _) (le_trans (Nat.min_le_left _ _) (Nat.mod_le _ _))

/-- Instance of C10 at `n = 1323`, the argument for 44100 Hz and 30 ms. -/
theorem nextPowerOf2_least_power_witness :
    ∃ j, nextPowerOf2 1323 = some (2 ^ j) ∧ 1323 ≤ 2 ^ j ∧ 2 ^ j / 2 < 1323 :=
  nextPowerOf2_least_power.1 1323 (by norm_num) (by norm_num)

/-- C4, as stated, fails: registering a handle that is already present, here
handle `7` mapped to a generator with open device `2`, is not refused and
does not leave the registry unchanged; the previous generator is replaced by
a new, closed one. -/
theorem registerSoundBuffer_replaces :
    Registry.find 7 [(7, { DirectSoundGenerator.new 7 with myAudioDevice := 2 })] =
      some { DirectSoundGenerator.new 7 with myAudioDevice := 2 } ∧
    registerSoundBuffer [(7, { DirectSoundGenerator.new 7 with myAudioDevice := 2 })] 7 ≠
      [(7, { DirectSoundGenerator.new 7 with myAudioDevice := 2 })] ∧
    Registry.find 7
      (registerSoundBuffer [(7, { DirectSoundGenerator.new 7 with myAudioDevice := 2 })] 7) =
      some (DirectSoundGenerator.new 7) := by
  decide

/-- C4, amended. `registerSoundBuffer` never refuses: for every registry and
every handle `h`, present or not, afterwards `h` is mapped to a newly
constructed, closed generator (a previous generator of `h` is replaced),
every other handle is mapped as before, the set of keys gains at most `h`,
and keys stay unique. -/
theorem registerSoundBuffer_overwrites (r : Registry) (h : Handle) :
    (registerSoundBuffer r h).find h = some (DirectSoundGenerator.new h) ∧
    (DirectSoundGenerator.new h).myAudioDevice = 0 ∧
    (∀ k, k ≠ h → (registerSoundBuffer r h).find k = r.find k) ∧
    (registerSoundBuffer r h).keys = (if h ∈ r.keys then r.keys else r.keys ++ [h]) ∧
    (r.WF → (registerSoundBuffer r h).WF) :=
  ⟨Registry.find_assign_self h _ r, rfl, fun k hk => Registry.find_assign_ne h k hk _ r,
   Registry.keys_assign h _ r, Registry.WF_assign h _ r⟩

/-- C5. `unregisterSoundBuffer` is total and idempotent: on a registry with
unique keys the result lacks `h`, agrees with the original on every other
handle and still has unique keys; unregistering `h` again changes nothing,
and unregistering an absent handle is a no-op. -/
theorem unregisterSoundBuffer_idempotent (r : Registry) (hwf : r.WF) (h : Handle) :
    (unregisterSoundBuffer r h).find h = none ∧
    (∀ k, k ≠ h → (unregisterSoundBuffer r h).find k = r.find k) ∧
    unregisterSoundBuffer (unregisterSoundBuffer r h) h = unregisterSoundBuffer r h ∧
    (r.find h = none → unregisterSoundBuffer r h = r) ∧
    (unregisterSoundBuffer r h).WF := by
  cases hf : r.find h with
  | none =>
    have hu : unregisterSoundBuffer r h = r := by simp [unregisterSoundBuffer, hf]
    rw [hu]
    exact ⟨hf, fun _ _ => rfl, hu, fun _ => rfl, hwf⟩
  | some g =>
    have hu : unregisterSoundBuffer r h = r.erase h := by simp [unregisterSoundBuffer, hf]
    have hnone := Registry.find_erase_self h r hwf
    rw [hu]
    refine ⟨hnone, fun k hk => Registry.find_erase_ne h k hk r, ?_, fun e => ?_,
      Registry.WF_erase h r hwf⟩
    · simp [unregisterSoundBuffer, hnone]
    · exact Option.noConfusion e

/-- Instance of C5: unregistering handle `2`, whose generator has open device
`5`, from a registry that holds handles `1` and `2`. -/
theorem unregisterSoundBuffer_idempotent_witness :
    Registry.WF [(1, DirectSoundGenerator.new 1),
      (2, { DirectSoundGenerator.new 2 with myAudioDevice := 5 })] ∧
    unregisterSoundBuffer [(1, DirectSoundGenerator.new 1),
      (2, { DirectSoundGenerator.new 2 with myAudioDevice := 5 })] 2 =
      [(1, DirectSoundGenerator.new 1)] ∧
    unregisterSoundBuffer (unregisterSoundBuffer [(1, DirectSoundGenerator.new 1),
      (2, { DirectSoundGenerator.new 2 with myAudioDevice := 5 })] 2) 2 =
      unregisterSoundBuffer [(1, DirectSoundGenerator.new 1),
      (2, { DirectSoundGenerator.new 2 with myAudioDevice := 5 })] 2 :=
  ⟨by decide, by decide,
   (unregisterSoundBuffer_idempotent [(1, DirectSoundGenerator.new 1),
      (2, { DirectSoundGenerator.new 2 with myAudioDevice := 5 })] (by decide) 2).2.2.1⟩

/-- C8. `sa2::stopAudio` closes without unregistering: the keys are the same,
in the same order; every generator is as before except that its audio device
id is `0`, so every entry of `getAudioInfo` reports `running = false`;
stopping a closed generator changes nothing, and `stopAudio` applied twice
equals `stopAudio` applied once. -/
theorem stopAudio_closes_all {α : Type} [LinearOrderedField α] (r : Registry) :
    (sa2.stopAudio r).keys = r.keys ∧
    sa2.stopAudio r = r.map (fun it => (it.1, { it.2 with myAudioDevice := 0 })) ∧
    (∀ it, it ∈ sa2.stopAudio r → it.2.myAudioDevice = 0) ∧
    (∀ (info : SoundInfo α) (buffers : Handle → IDirectSoundBuffer α) (i : SoundInfo α),
      i ∈ sa2.getAudioInfo info buffers (sa2.stopAudio r) → i.running = false) ∧
    (∀ g : DirectSoundGenerator, g.myAudioDevice = 0 → g.stop = g) ∧
    sa2.stopAudio (sa2.stopAudio r) = sa2.stopAudio r := by
  have hmap : sa2.stopAudio r = r.map (fun it => (it.1, { it.2 with myAudioDevice := 0 })) := by
    unfold sa2.stopAudio
    apply List.map_congr_left
    intro it _
    rw [DirectSoundGenerator.stop_eq]
  have hclosed : ∀ it, it ∈ sa2.stopAudio r → it.2.myAudioDevice = 0 := by
    intro it hit
    rw [hmap, List.mem_map] at hit
    obtain ⟨a, _, rfl⟩ := hit
    rfl
  refine ⟨?_, hmap, hclosed, ?_, DirectSoundGenerator.stop_of_closed, ?_⟩
  · simp [sa2.stopAudio, Registry.keys, List.map_map, Function.comp_def]
  · intro info buffers i hi
    simp only [sa2.getAudioInfo, List.mem_map] at hi
    obtain ⟨it, hit, rfl⟩ := hi
    have h0 := hclosed it hit
    unfold DirectSoundGenerator.getInfo
    simp [DirectSoundGenerator.isRunning, h0]
  · simp [sa2.stopAudio, List.map_map, Function.comp_def, DirectSoundGenerator.stop_stop]

/-- C3, as stated, fails. In the scenario (handle `1` registered, playing at
44100 Hz with 2 channels and logarithmic volume `0.5`, SDL opening device `2`
with the wanted spec, then `sa2::writeAudio(30)`) the field `volume` of the
entry is the logarithmic volume `0.5` itself, more than `0.15` away from
`0.3466`; and the conversion formula at `0.5` is also more than `0.15` away
from `0.3466`. -/
theorem endToEnd_volume_not_gain :
    ∃ r' g,
      sa2.writeAudio 16384 1 (fun want => (2, want))
        (fun _ => (scenarioBuffer : IDirectSoundBuffer ℚ)) 30 (registerSoundBuffer [] 1) =
        some r' ∧
      r'.find 1 = some g ∧
      (g.getInfo zeroInfo scenarioBuffer).volume = 0.5 ∧
      (0.15 : ℚ) < |(g.getInfo zeroInfo scenarioBuffer).volume - 0.3466| ∧
      (0.15 : ℝ) < |linVolume Real.log 0.5 - 0.3466| := by
  obtain ⟨r', g, hr, hf, -, -, -, hv⟩ :=
    sa2.writeAudio_after_register 16384 1 zeroInfo (fun want => (2, want))
      (fun _ => (scenarioBuffer : IDirectSoundBuffer ℚ)) [] 1 30 (by decide)
      (fun _ => ⟨Nat.succ_ne_zero 1, rfl⟩)
  have hv' : (g.getInfo zeroInfo scenarioBuffer).volume = 0.5 := hv
  refine ⟨r', g, hr, hf, hv', ?_, ?_⟩
  · rw [hv', abs_of_nonneg] <;> norm_num
  · have h := linVolume_half.2.2
    rw [abs_of_nonpos] <;> norm_num <;> linarith

/-- C3, amended. After `registerSoundBuffer(h1)`, with `h1` playing on 2
channels at logarithmic volume `0.5` and SDL opening a device without
changing the channel count, `sa2::writeAudio(30)` returns and the entry of
`getAudioInfo` for `h1` has `running = true`, `channels = 2` and
`volume = 0.5`: the field carries the logarithmic volume, not the gain. The
gain that the conversion formula gives at `0.5` is `ln 2 / ln 100`, between
`1 / 7` and `1 / 6`. -/
theorem endToEnd_info {α : Type} [LinearOrderedField α] (MAX_SAMPLES DSBSTATUS_PLAYING : Nat)
    (info : SoundInfo α) (SDL_OpenAudioDevice : SDL_AudioSpec → Nat × SDL_AudioSpec)
    (buffers : Handle → IDirectSoundBuffer α) (r : Registry) (h1 : Handle)
    (hplay : (buffers h1).status &&& DSBSTATUS_PLAYING ≠ 0)
    (hch : (buffers h1).channels = 2)
    (hvol : (buffers h1).logarithmicVolume = 0.5)
    (hopen : ∀ want, (SDL_OpenAudioDevice want).1 ≠ 0 ∧
      (SDL_OpenAudioDevice want).2.channels = want.channels) :
    (∃ r' g,
      sa2.writeAudio MAX_SAMPLES DSBSTATUS_PLAYING SDL_OpenAudioDevice buffers 30
        (registerSoundBuffer r h1) = some r' ∧
      r'.find h1 = some g ∧
      g.getInfo info (buffers h1) ∈ sa2.getAudioInfo info buffers r' ∧
      (g.getInfo info (buffers h1)).running = true ∧
      (g.getInfo info (buffers h1)).channels = 2 ∧
      (g.getInfo info (buffers h1)).volume = 0.5) ∧
    linVolume Real.log 0.5 = Real.log 2 / Real.log 100 ∧
    1 / 7 ≤ linVolume Real.log 0.5 ∧ linVolume Real.log 0.5 ≤ 1 / 6 := by
  obtain ⟨r', g, hr, hf, hmem, hrun, hc, hv⟩ :=
    sa2.writeAudio_after_register MAX_SAMPLES DSBSTATUS_PLAYING info SDL_OpenAudioDevice buffers
      r h1 30 hplay hopen
  refine ⟨⟨r', g, hr, hf, hmem, hrun, ?_, hv.trans hvol⟩, linVolume_half⟩
  rw [hc, hch]
  rfl

/-- Instance of the amended C3: handle `1` on an empty registry, SDL opening
device `2` with exactly the wanted spec. -/
theorem endToEnd_info_witness :
    ∃ r' g,
      sa2.writeAudio 16384 1 (fun want => (2, want))
        (fun _ => (scenarioBuffer : IDirectSoundBuffer ℚ)) 30 (registerSoundBuffer [] 1) =
        some r' ∧
      r'.find 1 = some g ∧
      g.getInfo zeroInfo scenarioBuffer ∈
        sa2.getAudioInfo zeroInfo (fun _ => scenarioBuffer) r' ∧
      (g.getInfo zeroInfo scenarioBuffer).running = true ∧
      (g.getInfo zeroInfo scenarioBuffer).channels = 2 ∧
      (g.getInfo zeroInfo scenarioBuffer).volume = 0.5 :=
  (endToEnd_info 16384 1 zeroInfo (fun want => (2, want))
    (fun _ => (scenarioBuffer : IDirectSoundBuffer ℚ)) [] 1 (by decide) rfl rfl
    (fun _ => ⟨Nat.succ_ne_zero 1, rfl⟩)).1

/-- C7. Lifecycle of the running flag. After `registerSoundBuffer(h)` the
result of `getAudioInfo` holds an entry for `h` with `running = false`. Any
finite sequence of `sa2::writeAudio` calls after it returns, keeps the keys,
and leaves `h` with an entry whose `running` is `true` exactly when some call
of the sequence found the buffer of `h` with `DSBSTATUS_PLAYING` set and had
`SDL_OpenAudioDevice` return a device; in particular `running` stays `false`
when no call finds `h` playing. -/
theorem running_lifecycle {α : Type} [LinearOrderedField α]
    (MAX_SAMPLES DSBSTATUS_PLAYING : Nat) (info : SoundInfo α)
    (buffers : Handle → IDirectSoundBuffer α) (r : Registry) (h : Handle)
    (cs : List (WriteCall α)) :
    (∃ g, (registerSoundBuffer r h).find h = some g ∧
      g.getInfo info (buffers h) ∈
        sa2.getAudioInfo info buffers (registerSoundBuffer r h) ∧
      (g.getInfo info (buffers h)).running = false) ∧
    (∃ r' g', writeAudioCalls MAX_SAMPLES DSBSTATUS_PLAYING cs (registerSoundBuffer r h) =
        some r' ∧
      r'.keys = (registerSoundBuffer r h).keys ∧
      r'.find h = some g' ∧
      g'.getInfo info (buffers h) ∈ sa2.getAudioInfo info buffers r' ∧
      ((g'.getInfo info (buffers h)).running = true ↔
        ∃ c, c ∈ cs ∧ (c.buffers h).status &&& DSBSTATUS_PLAYING ≠ 0 ∧
          ∃ k, nextPowerOf2 ((c.buffers h).sampleRate * c.ms % SIZE_T_MOD / 1000) = some k ∧
            (c.SDL_OpenAudioDevice (wantSpec MAX_SAMPLES (c.buffers h) h k)).1 ≠ 0) ∧
      ((∀ c, c ∈ cs → (c.buffers h).status &&& DSBSTATUS_PLAYING = 0) →
        (g'.getInfo info (buffers h)).running = false)) := by
  have hf : (registerSoundBuffer r h).find h = some (DirectSoundGenerator.new h) :=
    Registry.find_assign_self h _ r
  refine ⟨⟨_, hf, sa2.getInfo_mem_getAudioInfo info buffers _ h _ hf rfl, ?_⟩, ?_⟩
  · rw [DirectSoundGenerator.getInfo_running]
    rfl
  · obtain ⟨r', g', hr', hkeys, hf', hb', hiff⟩ :=
      writeAudioCalls_spec MAX_SAMPLES DSBSTATUS_PLAYING h cs (registerSoundBuffer r h)
        (DirectSoundGenerator.new h) hf rfl
    have hrun : (g'.getInfo info (buffers h)).running = true ↔ g'.myAudioDevice ≠ 0 := by
      rw [DirectSoundGenerator.getInfo_running]
      simp [DirectSoundGenerator.isRunning]
    have hnew : ¬ (DirectSoundGenerator.new h).myAudioDevice ≠ 0 := fun hne => hne rfl
    have hiff' := hrun.trans (hiff.trans (or_iff_right hnew))
    refine ⟨r', g', hr', hkeys, hf', sa2.getInfo_mem_getAudioInfo info buffers r' h g' hf' hb',
      hiff', fun hnever => ?_⟩
    rw [← Bool.not_eq_true]
    rintro hr
    obtain ⟨c, hc, hp, -⟩ := hiff'.mp hr
    exact hp (hnever c hc)

/-- C6. Underrun silence padding in the pull callback. For a request of `len`
bytes (an `int`, the size of the output region) in which `Read` returns
`bytesRead ≤ len` bytes as two spans whose lengths add up to `bytesRead`, and
with a mixer that writes as many bytes as it is given, the output region
afterwards still has `len` bytes. Its first `bytesRead` bytes are what
`SDL_MixAudioFormat` makes of the first span followed by the second, mixed
onto zeros at volume
`Uint8((logVolume > 0.99 ? 1.0 : -log(1.0 - logVolume) / log(100.0)) * 128)`;
each of the other `len - bytesRead` bytes is the silence value of the
negotiated format; when `bytesRead = len` the output is the mix alone. This
holds for every arithmetic on `α`, every `log` and every conversion to
`Uint8`. -/
theorem audioCallback_silence_padding {α : Type} [LT α] [∀ a b : α, Decidable (a < b)]
    [OfScientific α] [Neg α] [Sub α] [Div α] [Mul α] [NatCast α]
    (log : α → α) (toUint8 : α → Nat)
    (SDL_MixAudioFormat : List Nat → List Nat → Nat → Nat → Nat → List Nat)
    (buf : IDirectSoundBuffer α) (rd : ReadResult) (g : DirectSoundGenerator)
    (stream : List Nat) (len : Nat)
    (hmix : ∀ dst src format n volume,
      (SDL_MixAudioFormat dst src format n volume).length = dst.length)
    (hlen : stream.length = len) (hint : len < 2 ^ 31)
    (hA : rd.bytesRead ≤ len)
    (hsum : rd.dwAudioBytes1 + rd.dwAudioBytes2 = rd.bytesRead)
    (hp1 : rd.dwAudioBytes1 ≠ 0 →
      ∃ m, rd.lpvAudioPtr1 = some m ∧ rd.dwAudioBytes1 ≤ m.length)
    (hp2 : rd.dwAudioBytes2 ≠ 0 →
      ∃ m, rd.lpvAudioPtr2 = some m ∧ rd.dwAudioBytes2 ≤ m.length) :
    (g.audioCallback log toUint8 SDL_MixAudioFormat buf rd stream len).2.length = len ∧
    (g.audioCallback log toUint8 SDL_MixAudioFormat buf rd stream len).2.take rd.bytesRead =
      SDL_MixAudioFormat (List.replicate rd.bytesRead 0)
        ((rd.lpvAudioPtr1.getD []).take rd.dwAudioBytes1 ++
          (rd.lpvAudioPtr2.getD []).take rd.dwAudioBytes2)
        g.myAudioSpec.format rd.bytesRead
        (toUint8 ((if buf.logarithmicVolume > 0.99 then 1.0
          else -log (1.0 - buf.logarithmicVolume) / log 100.0) * ((128 : Nat) : α))) ∧
    (g.audioCallback log toUint8 SDL_MixAudioFormat buf rd stream len).2.drop rd.bytesRead =
      List.replicate (len - rd.bytesRead) g.myAudioSpec.silence ∧
    (rd.bytesRead = len →
      (g.audioCallback log toUint8 SDL_MixAudioFormat buf rd stream len).2 =
        SDL_MixAudioFormat (List.replicate len 0)
          ((rd.lpvAudioPtr1.getD []).take rd.dwAudioBytes1 ++
            (rd.lpvAudioPtr2.getD []).take rd.dwAudioBytes2)
          g.myAudioSpec.format len
          (toUint8 ((if buf.logarithmicVolume > 0.99 then 1.0
            else -log (1.0 - buf.logarithmicVolume) / log 100.0) * ((128 : Nat) : α)))) := by
  have hout :=
    (audioCallback_mixer log toUint8 SDL_MixAudioFormat buf rd g stream len hsum hp1 hp2).2
  simp only [linVolume, ReadResult.span1, ReadResult.span2] at hout
  generalize (toUint8 ((if buf.logarithmicVolume > 0.99 then 1.0
    else -log (1.0 - buf.logarithmicVolume) / log 100.0) * ((128 : Nat) : α))) = vol at hout ⊢
  generalize ((rd.lpvAudioPtr1.getD []).take rd.dwAudioBytes1 ++
    (rd.lpvAudioPtr2.getD []).take rd.dwAudioBytes2) = spans at hout ⊢
  have hml : (SDL_MixAudioFormat (List.replicate rd.bytesRead 0) spans
      g.myAudioSpec.format rd.bytesRead vol).length = rd.bytesRead := by
    rw [hmix, List.length_replicate]
  have hgap : (len + SIZE_T_MOD - rd.bytesRead % SIZE_T_MOD) % SIZE_T_MOD =
      len - rd.bytesRead := by
    have h' : SIZE_T_MOD = 2 ^ 64 := rfl
    rw [h']
    omega
  simp only [hgap] at hout
  by_cases hz : len - rd.bytesRead = 0
  · have hzz : ¬ (len - rd.bytesRead ≠ 0) := not_not.mpr hz
    have heq : rd.bytesRead = len := by omega
    simp only [hzz, if_false] at hout
    have hdrop : stream.drop rd.bytesRead = [] := List.drop_of_length_le (by omega)
    rw [hdrop, List.append_nil] at hout
    rw [hout]
    refine ⟨by rw [hml, heq], ?_, ?_, fun _ => by rw [heq]⟩
    · exact List.take_of_length_le (by omega)
    · rw [hz, List.replicate_zero]
      exact List.drop_of_length_le (by omega)
  · simp only [hz, ne_eq, not_false_eq_true, if_true, memset] at hout
    have htake : (SDL_MixAudioFormat (List.replicate rd.bytesRead 0) spans
        g.myAudioSpec.format rd.bytesRead vol ++ stream.drop rd.bytesRead).take rd.bytesRead =
        SDL_MixAudioFormat (List.replicate rd.bytesRead 0) spans
        g.myAudioSpec.format rd.bytesRead vol := by
      rw [List.take_append_of_le_length (by omega), List.take_of_length_le (by omega)]
    have hdrop : (SDL_MixAudioFormat (List.replicate rd.bytesRead 0) spans
        g.myAudioSpec.format rd.bytesRead vol ++
        stream.drop rd.bytesRead).drop (rd.bytesRead + (len - rd.bytesRead)) = [] := by
      apply List.drop_of_length_le
      simp only [List.length_append, List.length_drop, hml]
      omega
    rw [htake, hdrop, List.append_nil] at hout
    rw [hout]
    refine ⟨?_, ?_, ?_, fun h => absurd h (by omega)⟩
    · simp only [List.length_append, List.length_replicate, hml]
      omega
    · rw [List.take_append_of_le_length (by omega), List.take_of_length_le (by omega)]
    · rw [List.drop_append_of_le_length (by omega), List.drop_of_length_le (by omega),
        List.nil_append]

/-- Instance of C6: 6 bytes requested, 4 available as spans of 3 and 1 bytes,
unsigned 8-bit format with silence value `128`. At logarithmic volume `1`
(mix volume `128`) the output is the four bytes followed by two silence
bytes; at logarithmic volume `0` (mix volume `0`) the four bytes are muted. -/
theorem audioCallback_silence_padding_witness :
    (exampleGenerator.audioCallback Real.log truncUint8 exampleMix (bufferAtVolume 1)
      exampleRead [9, 9, 9, 9, 9, 9] 6).2 = [10, 20, 30, 40, 128, 128] ∧
    (exampleGenerator.audioCallback Real.log truncUint8 exampleMix (bufferAtVolume 0)
      exampleRead [9, 9, 9, 9, 9, 9] 6).2 = [0, 0, 0, 0, 128, 128] := by
  have hmix : ∀ (dst src : List Nat) (format n volume : Nat),
      (exampleMix dst src format n volume).length = dst.length := by
    intro dst src _ _ _
    simp [exampleMix]
  have h1 := audioCallback_silence_padding Real.log truncUint8 exampleMix (bufferAtVolume 1)
    exampleRead exampleGenerator [9, 9, 9, 9, 9, 9] 6 hmix rfl (by norm_num) (by decide) rfl
    (fun _ => ⟨_, rfl, by decide⟩) (fun _ => ⟨_, rfl, by decide⟩)
  have h0 := audioCallback_silence_padding Real.log truncUint8 exampleMix (bufferAtVolume 0)
    exampleRead exampleGenerator [9, 9, 9, 9, 9, 9] 6 hmix rfl (by norm_num) (by decide) rfl
    (fun _ => ⟨_, rfl, by decide⟩) (fun _ => ⟨_, rfl, by decide⟩)
  have hv1 : truncUint8 ((if (bufferAtVolume 1).logarithmicVolume > 0.99 then (1.0 : ℝ)
      else -Real.log (1.0 - (bufferAtVolume 1).logarithmicVolume) / Real.log 100.0) *
      ((128 : Nat) : ℝ)) = 128 := by
    have hgt : (bufferAtVolume 1).logarithmicVolume > 0.99 := by
      show (1 : ℝ) > 0.99
      norm_num
    rw [if_pos hgt]
    have h128 : (1.0 : ℝ) * ((128 : Nat) : ℝ) = ((128 : Int) : ℝ) := by norm_num
    rw [h128]
    simp [truncUint8]
  have hv0 : truncUint8 ((if (bufferAtVolume 0).logarithmicVolume > 0.99 then (1.0 : ℝ)
      else -Real.log (1.0 - (bufferAtVolume 0).logarithmicVolume) / Real.log 100.0) *
      ((128 : Nat) : ℝ)) = 0 := by
    have hle : ¬ (bufferAtVolume 0).logarithmicVolume > 0.99 := by
      show ¬ (0 : ℝ) > 0.99
      norm_num
    rw [if_neg hle]
    have hz : -Real.log (1.0 - (bufferAtVolume 0).logarithmicVolume) / Real.log 100.0 *
        ((128 : Nat) : ℝ) = ((0 : Int) : ℝ) := by
      show -Real.log (1.0 - 0) / Real.log 100.0 * ((128 : Nat) : ℝ) = ((0 : Int) : ℝ)
      norm_num
    rw [hz]
    simp [truncUint8]
  rw [hv1] at h1
  rw [hv0] at h0
  constructor
  · rw [← List.take_append_drop exampleRead.bytesRead (DirectSoundGenerator.audioCallback
      Real.log truncUint8 exampleMix (bufferAtVolume 1) exampleRead exampleGenerator
      [9, 9, 9, 9, 9, 9] 6).2, h1.2.1, h1.2.2.1]
    decide
  · rw [← List.take_append_drop exampleRead.bytesRead (DirectSoundGenerator.audioCallback
      Real.log truncUint8 exampleMix (bufferAtVolume 0) exampleRead exampleGenerator
      [9, 9, 9, 9, 9, 9] 6).2, h0.2.1, h0.2.2.1]
    decide

end Claims

end SDirectSound
